import Mathlib

/-!
Shallow embedding of the constraint-satisfaction notebook
(AIND-Constraint_Satisfaction.ipynb).  Each puzzle cell builds a z3
`Solver`, declares integer variables and conjoins constraints; a model is
any integer assignment satisfying every added constraint.  We embed each
instance as a predicate over an explicit assignment record (or assignment
function), with one conjunct per `solver.add` argument, in source order.
-/

namespace Spec2Proof

/-- A conditional constraint with decidable guard and branches is
decidable. -/
instance iteDecidable (c t e : Prop) [hc : Decidable c] [ht : Decidable t]
    [he : Decidable e] : Decidable (if c then t else e) :=
  match hc with
  | isTrue h => by rw [if_pos h]; exact ht
  | isFalse h => by rw [if_neg h]; exact he

/-! ### Cryptarithmetic: TWO + TWO = FOUR

Variables (cell 5): `F` with `0 <= F <= 9`, and `z3_vars = [O, R, T, U, W]`
each with `0 <= v <= 9`.  Cell 7 adds `T != 0, F != 0` and the five
disequalities `T != W, W != O, F != O, O != U, U != R`.  Cell 9 declares
`carry_1, carry_2, carry_3` (no range constraint) and adds the four
carry-chain equations.  The model also records the three carries. -/

structure CAModel where
  F : ℤ
  O : ℤ
  R : ℤ
  T : ℤ
  U : ℤ
  W : ℤ
  carry_1 : ℤ
  carry_2 : ℤ
  carry_3 : ℤ

/-- The conjunction of every constraint the notebook adds to `ca_solver`,
in source order (cells 5, 7 and 9). -/
def caSat (m : CAModel) : Prop :=
  (0 ≤ m.F ∧ m.F ≤ 9) ∧
  (0 ≤ m.O ∧ m.O ≤ 9) ∧
  (0 ≤ m.R ∧ m.R ≤ 9) ∧
  (0 ≤ m.T ∧ m.T ≤ 9) ∧
  (0 ≤ m.U ∧ m.U ≤ 9) ∧
  (0 ≤ m.W ∧ m.W ≤ 9) ∧
  (m.T ≠ 0 ∧ m.F ≠ 0) ∧
  (m.T ≠ m.W ∧ m.W ≠ m.O ∧ m.F ≠ m.O ∧ m.O ≠ m.U ∧ m.U ≠ m.R) ∧
  (m.O * 1 + m.O * 1 = m.R + m.carry_1 * 10) ∧
  (m.carry_1 * 10 + m.W * 10 + m.W * 10 = m.U * 10 + m.carry_2 * 100) ∧
  (m.carry_2 * 100 + (m.T + m.T) * 100 = m.O * 100 + m.carry_3 * 1000) ∧
  (m.carry_3 = m.F)

instance (m : CAModel) : Decidable (caSat m) := by
  unfold caSat; infer_instance

/-- All six letter variables take pairwise distinct values. -/
def caAllDistinct (m : CAModel) : Prop :=
  m.F ≠ m.O ∧ m.F ≠ m.R ∧ m.F ≠ m.T ∧ m.F ≠ m.U ∧ m.F ≠ m.W ∧
  m.O ≠ m.R ∧ m.O ≠ m.T ∧ m.O ≠ m.U ∧ m.O ≠ m.W ∧
  m.R ≠ m.T ∧ m.R ≠ m.U ∧ m.R ≠ m.W ∧
  m.T ≠ m.U ∧ m.T ≠ m.W ∧
  m.U ≠ m.R ∧ m.U ≠ m.W

instance (m : CAModel) : Decidable (caAllDistinct m) := by
  unfold caAllDistinct; infer_instance

/-- A model of the notebook constraint set in which `F = W = 1`
(it renders as 816 + 816 = 1632). -/
def caBadModel : CAModel :=
  ⟨1, 6, 2, 8, 3, 1, 1, 0, 1⟩

/-- A model of the notebook constraint set rendering 734 + 734 = 1468. -/
def caGoodModel : CAModel :=
  ⟨1, 4, 8, 7, 6, 3, 0, 0, 1⟩

/-! ### Map coloring of Australia

Cell 15 declares `WA, SA, NT, Q, NSW, V, T`, each with `0 <= v <= 2`.
Cell 17 adds exactly the disequalities
`WA != SA, WA != NT, NT != SA, Q != NT, NSW != SA, SA != Q, NSW != SA,
NSW != V` (note the repeated `NSW != SA`); no constraint mentions `T`,
and no constraint relates `Q` with `NSW` or `SA` with `V`. -/

structure MCModel where
  WA : ℤ
  SA : ℤ
  NT : ℤ
  Q : ℤ
  NSW : ℤ
  V : ℤ
  T : ℤ

/-- The conjunction of every constraint the notebook adds to `mc_solver`,
in source order (cells 15 and 17). -/
def mcSat (m : MCModel) : Prop :=
  (0 ≤ m.WA ∧ m.WA ≤ 2) ∧
  (0 ≤ m.SA ∧ m.SA ≤ 2) ∧
  (0 ≤ m.NT ∧ m.NT ≤ 2) ∧
  (0 ≤ m.Q ∧ m.Q ≤ 2) ∧
  (0 ≤ m.NSW ∧ m.NSW ≤ 2) ∧
  (0 ≤ m.V ∧ m.V ≤ 2) ∧
  (0 ≤ m.T ∧ m.T ≤ 2) ∧
  (m.WA ≠ m.SA ∧ m.WA ≠ m.NT) ∧
  (m.NT ≠ m.SA ∧ m.Q ≠ m.NT) ∧
  (m.NSW ≠ m.SA ∧ m.SA ≠ m.Q) ∧
  (m.NSW ≠ m.SA ∧ m.NSW ≠ m.V)

instance (m : MCModel) : Decidable (mcSat m) := by
  unfold mcSat; infer_instance

/-- A model of the notebook constraint set in which Queensland and
New South Wales share a color and South Australia and Victoria share a
color. -/
def mcBadModel : MCModel :=
  ⟨0, 2, 1, 0, 0, 2, 0⟩

/-- A model of the notebook constraint set that is also a proper coloring
of the full Australia adjacency. -/
def mcGoodModel : MCModel :=
  ⟨0, 1, 2, 0, 2, 0, 0⟩

/-! ### Solver verdicts and decode guards

Each flow decodes the model behind a guard.  The cryptarithmetic, map
coloring and Sudoku cells guard with `assert solver.check() == sat`.  The
N-Queens timing cell instead writes `assert nq_solver.check()`: the z3
`CheckSatResult` object returned by `check()` defines no `__bool__` (and
no `__len__`), so the Python truth test of that object is `True` for each
of the three verdict objects `sat`, `unsat`, `unknown`. -/

inductive Verdict where
  | sat
  | unsat
  | unknown
deriving DecidableEq

/-- The guard `solver.check() == sat` used by the cryptarithmetic (cell
10), map coloring (cell 18) and Sudoku (cell 31) flows. -/
def eqSatGuard : Verdict → Bool
  | Verdict.sat => true
  | Verdict.unsat => false
  | Verdict.unknown => false

/-- The guard `assert nq_solver.check()` of the N-Queens flow (cell 22):
the Python truth value of the returned `CheckSatResult` object, which is
`True` for every verdict because the class defines neither `__bool__`
nor `__len__`. -/
def truthyGuard : Verdict → Bool := fun _ => true

/-! ### N-Queens

Cell 21, `nqueens(N)`: variables `Q[0] .. Q[N-1]`; `val_c` bounds each to
`[1, N]`; `col_c` is one `Distinct` over the list; `diag_c` ranges over
`i in range(N)` and `j in range(i)` and adds
`If(i == j, True, And(Q[i] - Q[j] != i - j, Q[i] - Q[j] != j - i))`.
An assignment is a function from the column index to the row value. -/

/-- The `val_c` constraint list of `nqueens(N)`. -/
def nqueensVal (N : ℕ) (q : ℕ → ℤ) : Prop :=
  ∀ i, i < N → 1 ≤ q i ∧ q i ≤ (N : ℤ)

/-- The `col_c` constraint of `nqueens(N)`: `Distinct(Q)`. -/
def nqueensCol (N : ℕ) (q : ℕ → ℤ) : Prop :=
  ∀ i, i < N → ∀ j, j < N → i ≠ j → q i ≠ q j

/-- The `diag_c` constraint list of `nqueens(N)`, with the guard `If(i == j, ...)`
kept as in the source. -/
def nqueensDiag (N : ℕ) (q : ℕ → ℤ) : Prop :=
  ∀ i, i < N → ∀ j, j < i →
    if i = j then True
    else q i - q j ≠ (i : ℤ) - (j : ℤ) ∧ q i - q j ≠ (j : ℤ) - (i : ℤ)

/-- The whole constraint set `val_c + col_c + diag_c` added by `nqueens(N)`. -/
def nqueensSat (N : ℕ) (q : ℕ → ℤ) : Prop :=
  nqueensVal N q ∧ nqueensCol N q ∧ nqueensDiag N q

instance (N : ℕ) (q : ℕ → ℤ) : Decidable (nqueensSat N q) := by
  unfold nqueensSat nqueensVal nqueensCol nqueensDiag; infer_instance

/-- The diagonal constraints written without the vacuous guard, as the
claim words them: the unguarded conjunction over all pairs j < i. -/
def nqueensDiagUnguarded (N : ℕ) (q : ℕ → ℤ) : Prop :=
  ∀ i, i < N → ∀ j, j < i →
    q i - q j ≠ (i : ℤ) - (j : ℤ) ∧ q i - q j ≠ (j : ℤ) - (i : ℤ)

/-- A concrete placement for N = 4: rows 2, 4, 1, 3 in columns 0..3. -/
def q4 : ℕ → ℤ := fun i =>
  if i = 0 then 2 else if i = 1 then 4 else if i = 2 then 1 else 3

/-! ### Sudoku

Cell 25 declares the 81 variables; cell 27 adds the range, row, column
and 3x3-block `Distinct` constraints; cell 30 fixes the givens through
`If(board[i][j] == 0, True, boxes[i][j] == board[i][j])`.  An assignment
is a function from (row, column) to the cell value. -/

/-- The 9x9 board literal of cell 30; 0 marks a blank cell. -/
def board : List (List ℤ) :=
  [[0, 0, 3, 0, 2, 0, 6, 0, 0],
   [9, 0, 0, 3, 0, 5, 0, 0, 1],
   [0, 0, 1, 8, 0, 6, 4, 0, 0],
   [0, 0, 8, 1, 0, 2, 9, 0, 0],
   [7, 0, 0, 0, 0, 0, 0, 0, 8],
   [0, 0, 6, 7, 0, 8, 2, 0, 0],
   [0, 0, 2, 6, 0, 9, 5, 0, 0],
   [8, 0, 0, 2, 0, 3, 0, 0, 9],
   [0, 0, 5, 0, 1, 0, 3, 0, 0]]

/-- `board[i][j]` of the notebook. -/
def boardAt (i j : ℕ) : ℤ :=
  (board.getD i []).getD j 0

/-- Cell 27: every box has a value between 1 and 9 inclusive. -/
def sudokuRange (g : ℕ → ℕ → ℤ) : Prop :=
  ∀ i, i < 9 → ∀ j, j < 9 → 1 ≤ g i j ∧ g i j ≤ 9

/-- Cell 27: `Distinct(boxes[i])` for each row i. -/
def sudokuRows (g : ℕ → ℕ → ℤ) : Prop :=
  ∀ i, i < 9 → ∀ j, j < 9 → ∀ k, k < 9 → j ≠ k → g i j ≠ g i k

/-- Cell 27: `Distinct` over each column j. -/
def sudokuCols (g : ℕ → ℕ → ℤ) : Prop :=
  ∀ j, j < 9 → ∀ i, i < 9 → ∀ k, k < 9 → i ≠ k → g i j ≠ g k j

/-- Cell 27: `Distinct` over each 3x3 block `(i0, j0)`; the block list
`[boxes[3*i0 + i][3*j0 + j] for i in range(3) for j in range(3)]` is
indexed here by the flattened position `a = 3*i + j`, `a < 9`. -/
def sudokuBlocks (g : ℕ → ℕ → ℤ) : Prop :=
  ∀ i0, i0 < 3 → ∀ j0, j0 < 3 → ∀ a, a < 9 → ∀ b, b < 9 → a ≠ b →
    g (3 * i0 + a / 3) (3 * j0 + a % 3) ≠ g (3 * i0 + b / 3) (3 * j0 + b % 3)

/-- Cell 30 as written in the source: the conditional constraint
`If(board[i][j] == 0, True, boxes[i][j] == board[i][j])` for all 81 cells. -/
def sudokuGivensCond (g : ℕ → ℕ → ℤ) : Prop :=
  ∀ i, i < 9 → ∀ j, j < 9 →
    if boardAt i j = 0 then True else g i j = boardAt i j

/-- The form the spec words describe: a fixing constraint only for the
cells with nonzero given values, no constraint for blank cells. -/
def sudokuGivensOmit (g : ℕ → ℕ → ℤ) : Prop :=
  ∀ i, i < 9 → ∀ j, j < 9 → boardAt i j ≠ 0 → g i j = boardAt i j

/-- The whole Sudoku instance of the notebook (cells 27 and 30). -/
def sudokuSat (g : ℕ → ℕ → ℤ) : Prop :=
  sudokuRange g ∧ sudokuRows g ∧ sudokuCols g ∧ sudokuBlocks g ∧
  sudokuGivensCond g

/-- The Sudoku instance with the conditional givens replaced by fixing
constraints for nonzero cells only. -/
def sudokuSatOmit (g : ℕ → ℕ → ℤ) : Prop :=
  sudokuRange g ∧ sudokuRows g ∧ sudokuCols g ∧ sudokuBlocks g ∧
  sudokuGivensOmit g

set_option synthInstance.maxSize 1000 in
instance (g : ℕ → ℕ → ℤ) : Decidable (sudokuSat g) := by
  unfold sudokuSat sudokuRange sudokuRows sudokuCols sudokuBlocks sudokuGivensCond
  infer_instance

/-- A solved grid for the board literal of cell 30. -/
def solGrid : List (List ℤ) :=
  [[4, 8, 3, 9, 2, 1, 6, 5, 7],
   [9, 6, 7, 3, 4, 5, 8, 2, 1],
   [2, 5, 1, 8, 7, 6, 4, 9, 3],
   [5, 4, 8, 1, 3, 2, 9, 7, 6],
   [7, 2, 9, 5, 6, 4, 1, 3, 8],
   [1, 3, 6, 7, 9, 8, 2, 4, 5],
   [3, 7, 2, 6, 8, 9, 5, 1, 4],
   [8, 1, 4, 2, 5, 3, 7, 6, 9],
   [6, 9, 5, 4, 1, 7, 3, 8, 2]]

/-- The solved grid as an assignment function. -/
def gSol : ℕ → ℕ → ℤ := fun i j =>
  (solGrid.getD i []).getD j 0

end Spec2Proof

namespace Spec2Proof

/-- C3: Every model of the cryptarithmetic instance satisfies the original
arithmetic equation exactly, i.e.
2*(100*T + 10*W + O) = 1000*F + 100*O + 10*U + R, and assigns no leading
zero: T ≠ 0 and F ≠ 0. -/
theorem C3_carry_chain_implies_equation (m : CAModel) (h : caSat m) :
    2 * (100 * m.T + 10 * m.W + m.O) = 1000 * m.F + 100 * m.O + 10 * m.U + m.R ∧
    m.T ≠ 0 ∧ m.F ≠ 0 := by
  unfold caSat at h
  omega

theorem C3_carry_chain_implies_equation_witness :
    2 * (100 * caGoodModel.T + 10 * caGoodModel.W + caGoodModel.O) =
      1000 * caGoodModel.F + 100 * caGoodModel.O + 10 * caGoodModel.U + caGoodModel.R ∧
    caGoodModel.T ≠ 0 ∧ caGoodModel.F ≠ 0 :=
  C3_carry_chain_implies_equation caGoodModel (by decide)

/-- C1: the claim states that every model of the cryptarithmetic instance
assigns pairwise distinct values to F, O, R, T, U, W.  The code adds only
the five disequalities T ≠ W, W ≠ O, F ≠ O, O ≠ U, U ≠ R (although its
comment announces a Distinct constraint for all the variables), and
`caBadModel` satisfies every added constraint while assigning F = W = 1:
it renders as 816 + 816 = 1632. -/
theorem C1_distinctness_violated : caSat caBadModel ∧ ¬ caAllDistinct caBadModel ∧
    caBadModel.F = caBadModel.W := by
  decide

/-- C8: every model of the cryptarithmetic instance assigns each carry
variable a non-negative value lying in [0, 9].  The code never adds a
range constraint on the carries, but the carry-chain equations together
with the letter ranges entail it. -/
theorem C8_carries_in_range (m : CAModel) (h : caSat m) :
    (0 ≤ m.carry_1 ∧ m.carry_1 ≤ 9) ∧
    (0 ≤ m.carry_2 ∧ m.carry_2 ≤ 9) ∧
    (0 ≤ m.carry_3 ∧ m.carry_3 ≤ 9) := by
  unfold caSat at h
  omega

theorem C8_carries_in_range_witness :
    (0 ≤ caGoodModel.carry_1 ∧ caGoodModel.carry_1 ≤ 9) ∧
    (0 ≤ caGoodModel.carry_2 ∧ caGoodModel.carry_2 ≤ 9) ∧
    (0 ≤ caGoodModel.carry_3 ∧ caGoodModel.carry_3 ≤ 9) :=
  C8_carries_in_range caGoodModel (by decide)

/-- C2: the claim states that every model of the map coloring instance
assigns different colors to each adjacent pair of the Australia map,
including Q-NSW and SA-V.  The code never adds Q ≠ NSW or SA ≠ V (it adds
NSW ≠ SA twice instead), and `mcBadModel` satisfies every added
constraint while coloring Q and NSW alike and SA and V alike. -/
theorem C2_adjacency_violated : mcSat mcBadModel ∧
    mcBadModel.Q = mcBadModel.NSW ∧ mcBadModel.SA = mcBadModel.V := by
  decide

/-- C10: T (Tasmania) occurs in no constraint of the map coloring
instance other than its range bound, so replacing the value of T by any
color in [0, 2] in a model yields a model. -/
theorem C10_tasmania_independent (m : MCModel) (c : ℤ)
    (h : mcSat m) (hc0 : 0 ≤ c) (hc2 : c ≤ 2) :
    mcSat { m with T := c } := by
  unfold mcSat at h ⊢
  exact ⟨h.1, h.2.1, h.2.2.1, h.2.2.2.1, h.2.2.2.2.1, h.2.2.2.2.2.1,
    ⟨hc0, hc2⟩, h.2.2.2.2.2.2.2⟩

theorem C10_tasmania_independent_witness :
    mcSat { mcGoodModel with T := 1 } :=
  C10_tasmania_independent mcGoodModel 1 (by decide) (by decide) (by decide)

/-- C6: the claim states that in every puzzle flow the guard gating the
decode step passes exactly for the SAT verdict.  This holds for the three
flows guarded by `check() == sat`, but the N-Queens flow asserts the
truthiness of the verdict object, which passes for UNSAT and UNKNOWN as
well. -/
theorem C6_nqueens_guard_passes_nonsat :
    eqSatGuard Verdict.sat = true ∧
    eqSatGuard Verdict.unsat = false ∧
    eqSatGuard Verdict.unknown = false ∧
    truthyGuard Verdict.unsat = true ∧
    truthyGuard Verdict.unknown = true := by
  decide

/-- C4: for every N ≥ 4 and every model of the constraint set built by
`nqueens(N)`: each queen variable lies in [1, N], the values are pairwise
distinct, and for every pair of columns i < j the absolute row difference
is not j - i (no shared diagonal). -/
theorem C4_nqueens_models (N : ℕ) (q : ℕ → ℤ) (hN : 4 ≤ N) (h : nqueensSat N q) :
    (∀ i, i < N → 1 ≤ q i ∧ q i ≤ (N : ℤ)) ∧
    (∀ i, i < N → ∀ j, j < N → i ≠ j → q i ≠ q j) ∧
    (∀ i, ∀ j, i < j → j < N → |q i - q j| ≠ (j : ℤ) - (i : ℤ)) := by
  obtain ⟨hval, hcol, hdiag⟩ := h
  refine ⟨hval, hcol, ?_⟩
  intro i j hij hjN habs
  have hd := hdiag j hjN i hij
  rw [if_neg (by omega)] at hd
  rcases abs_eq (by
    have : (i : ℤ) < (j : ℤ) := by exact_mod_cast hij
    omega : (0 : ℤ) ≤ (j : ℤ) - (i : ℤ)) |>.mp habs with hcase | hcase
  · exact hd.2 (by omega)
  · exact hd.1 (by omega)

theorem C4_nqueens_models_witness :
    (∀ i, i < 4 → 1 ≤ q4 i ∧ q4 i ≤ ((4 : ℕ) : ℤ)) ∧
    (∀ i, i < 4 → ∀ j, j < 4 → i ≠ j → q4 i ≠ q4 j) ∧
    (∀ i, ∀ j, i < j → j < 4 → |q4 i - q4 j| ≠ (j : ℤ) - (i : ℤ)) :=
  C4_nqueens_models 4 q4 (by decide) (by decide)

/-- C9: in `diag_c` the inner index ranges over `range(i)`, so the guard
`If(i == j, ...)` never takes its true branch, and the diagonal
constraint set is logically equal to the unguarded conjunction over all
pairs j < i. -/
theorem C9_diag_guard_vacuous (N : ℕ) (q : ℕ → ℤ) :
    (∀ i, i < N → ∀ j, j < i → ¬ (i = j)) ∧
    (nqueensDiag N q ↔ nqueensDiagUnguarded N q) := by
  refine ⟨fun i _ j hj heq => by omega, ?_⟩
  unfold nqueensDiag nqueensDiagUnguarded
  constructor
  · intro h i hi j hj
    have := h i hi j hj
    rwa [if_neg (by omega)] at this
  · intro h i hi j hj
    rw [if_neg (by omega)]
    exact h i hi j hj

/-- Pigeonhole step for Sudoku: nine pairwise distinct integers drawn
from [1, 9] hit every value of [1, 9], each exactly once. -/
theorem distinct_nine_exactly_once (f : ℕ → ℤ)
    (hrange : ∀ j, j < 9 → 1 ≤ f j ∧ f j ≤ 9)
    (hdist : ∀ j, j < 9 → ∀ k, k < 9 → j ≠ k → f j ≠ f k)
    (d : ℤ) (hd1 : 1 ≤ d) (hd9 : d ≤ 9) :
    ∃ j, j < 9 ∧ f j = d ∧ ∀ k, k < 9 → f k = d → k = j := by
  have hFlt : ∀ j : Fin 9, (f j.val - 1).toNat < 9 := by
    intro j
    have := hrange j.val j.isLt
    omega
  have hinj : Function.Injective
      (fun j : Fin 9 => (⟨(f j.val - 1).toNat, hFlt j⟩ : Fin 9)) := by
    intro a b hab
    by_contra hne
    have h1 := hrange a.val a.isLt
    have h2 := hrange b.val b.isLt
    have hv : a.val ≠ b.val := fun h => hne (Fin.ext h)
    have hfv := hdist a.val a.isLt b.val b.isLt hv
    have ht : (f a.val - 1).toNat = (f b.val - 1).toNat := congrArg Fin.val hab
    omega
  obtain ⟨j, hj⟩ := Finite.injective_iff_surjective.mp hinj ⟨(d - 1).toNat, by omega⟩
  have hjval : (f j.val - 1).toNat = (d - 1).toNat := congrArg Fin.val hj
  have hrj := hrange j.val j.isLt
  have hfj : f j.val = d := by omega
  refine ⟨j.val, j.isLt, hfj, ?_⟩
  intro k hk hfk
  have hkey : (⟨k, hk⟩ : Fin 9) = j := by
    apply hinj
    apply Fin.ext
    show (f k - 1).toNat = (f j.val - 1).toNat
    omega
  exact congrArg Fin.val hkey

/-- C5: for the fixed board literal, every model of the Sudoku instance
assigns each cell with a nonzero given value exactly that value, and in
every row, every column and every 3x3 block each of the digits 1..9
occurs exactly once. -/
theorem C5_sudoku_models (g : ℕ → ℕ → ℤ) (h : sudokuSat g) :
    (∀ i, i < 9 → ∀ j, j < 9 → boardAt i j ≠ 0 → g i j = boardAt i j) ∧
    (∀ i, i < 9 → ∀ d : ℤ, 1 ≤ d → d ≤ 9 →
      ∃ j, j < 9 ∧ g i j = d ∧ ∀ k, k < 9 → g i k = d → k = j) ∧
    (∀ j, j < 9 → ∀ d : ℤ, 1 ≤ d → d ≤ 9 →
      ∃ i, i < 9 ∧ g i j = d ∧ ∀ k, k < 9 → g k j = d → k = i) ∧
    (∀ i0, i0 < 3 → ∀ j0, j0 < 3 → ∀ d : ℤ, 1 ≤ d → d ≤ 9 →
      ∃ a, a < 9 ∧ g (3 * i0 + a / 3) (3 * j0 + a % 3) = d ∧
        ∀ b, b < 9 → g (3 * i0 + b / 3) (3 * j0 + b % 3) = d → b = a) := by
  obtain ⟨hrange, hrows, hcols, hblocks, hgivens⟩ := h
  refine ⟨?_, ?_, ?_, ?_⟩
  · intro i hi j hj hnz
    have := hgivens i hi j hj
    rwa [if_neg hnz] at this
  · intro i hi d hd1 hd9
    exact distinct_nine_exactly_once (fun j => g i j)
      (fun j hj => hrange i hi j hj) (hrows i hi) d hd1 hd9
  · intro j hj d hd1 hd9
    exact distinct_nine_exactly_once (fun i => g i j)
      (fun i hi => hrange i hi j hj) (hcols j hj) d hd1 hd9
  · intro i0 hi0 j0 hj0 d hd1 hd9
    refine distinct_nine_exactly_once (fun a => g (3 * i0 + a / 3) (3 * j0 + a % 3))
      (fun a ha => hrange (3 * i0 + a / 3) (by omega) (3 * j0 + a % 3) (by omega))
      (hblocks i0 hi0 j0 hj0) d hd1 hd9

theorem C5_sudoku_models_witness :
    (∀ i, i < 9 → ∀ j, j < 9 → boardAt i j ≠ 0 → gSol i j = boardAt i j) ∧
    (∀ i, i < 9 → ∀ d : ℤ, 1 ≤ d → d ≤ 9 →
      ∃ j, j < 9 ∧ gSol i j = d ∧ ∀ k, k < 9 → gSol i k = d → k = j) ∧
    (∀ j, j < 9 → ∀ d : ℤ, 1 ≤ d → d ≤ 9 →
      ∃ i, i < 9 ∧ gSol i j = d ∧ ∀ k, k < 9 → gSol k j = d → k = i) ∧
    (∀ i0, i0 < 3 → ∀ j0, j0 < 3 → ∀ d : ℤ, 1 ≤ d → d ≤ 9 →
      ∃ a, a < 9 ∧ gSol (3 * i0 + a / 3) (3 * j0 + a % 3) = d ∧
        ∀ b, b < 9 → gSol (3 * i0 + b / 3) (3 * j0 + b % 3) = d → b = a) :=
  C5_sudoku_models gSol (by decide)

/-- C7: the Sudoku instance built with the conditional constraint
`If(board[i][j] == 0, True, boxes[i][j] == board[i][j])` for all 81 cells
has exactly the same models as the instance that adds a fixing constraint
only for the cells with nonzero given values. -/
theorem C7_conditional_equiv_omitted (g : ℕ → ℕ → ℤ) :
    sudokuSat g ↔ sudokuSatOmit g := by
  unfold sudokuSat sudokuSatOmit
  refine and_congr_right fun _ => and_congr_right fun _ =>
    and_congr_right fun _ => and_congr_right fun _ => ?_
  unfold sudokuGivensCond sudokuGivensOmit
  constructor
  · intro h i hi j hj hnz
    have := h i hi j hj
    rwa [if_neg hnz] at this
  · intro h i hi j hj
    by_cases hz : boardAt i j = 0
    · rw [if_pos hz]
      trivial
    · rw [if_neg hz]
      exact h i hi j hj hz

end Spec2Proof
